import Mathlib

/-!
Verification of the isomer service-provisioning and process-supervision
engine (Rust sources under src-tauri and apps/desktop/src-tauri) against
its natural-language specification.

The Rust code is shallowly embedded: pure computations become Lean
functions on Nat / String / List, machine integers become Nat with
explicit reduction mod 2^32 where the Rust code wraps, fallible
operations return Except, and the external world (HTTP responses,
archive decoding, process spawning and waiting, the filesystem) is an
explicit environment record passed to each operation.  Byte strings are
List Nat with every element < 256.
-/

namespace Isomer

/-! ## SHA-256 over byte lists

The Rust code hashes downloaded payloads with the sha2 crate
(Sha256) and compares the hex encoding of the digest.  The function is
reimplemented here over List Nat bytes, following FIPS 180-4: padding,
big-endian 32-bit words, 64-round compression on Nat values reduced
mod 2^32. -/

/-- Word size modulus used by SHA-256 arithmetic. -/
def M32 : Nat := 4294967296

/-- Addition of 32-bit words, wrapping mod 2^32. -/
def add32 (a b : Nat) : Nat := (a + b) % M32

/-- Right rotation of a 32-bit word by n bits. -/
def rotr32 (n x : Nat) : Nat := ((x >>> n) ||| (x <<< (32 - n))) % M32

/-- Bitwise complement within 32 bits. -/
def not32 (x : Nat) : Nat := 4294967295 ^^^ x

/-- Big sigma 0 of FIPS 180-4. -/
def bsig0 (x : Nat) : Nat := rotr32 2 x ^^^ rotr32 13 x ^^^ rotr32 22 x

/-- Big sigma 1 of FIPS 180-4. -/
def bsig1 (x : Nat) : Nat := rotr32 6 x ^^^ rotr32 11 x ^^^ rotr32 25 x

/-- Small sigma 0 of FIPS 180-4. -/
def ssig0 (x : Nat) : Nat := rotr32 7 x ^^^ rotr32 18 x ^^^ (x >>> 3)

/-- Small sigma 1 of FIPS 180-4. -/
def ssig1 (x : Nat) : Nat := rotr32 17 x ^^^ rotr32 19 x ^^^ (x >>> 10)

/-- Choice function of the SHA-256 round. -/
def chf (x y z : Nat) : Nat := (x &&& y) ^^^ (not32 x &&& z)

/-- Majority function of the SHA-256 round. -/
def majf (x y z : Nat) : Nat := (x &&& y) ^^^ (x &&& z) ^^^ (y &&& z)

/-- Round constants of SHA-256 (fractional cube roots of the first 64 primes). -/
def sha256K : List Nat :=
  [1116352408, 1899447441, 3049323471, 3921009573, 961987163, 1508970993, 2453635748, 2870763221,
   3624381080, 310598401, 607225278, 1426881987, 1925078388, 2162078206, 2614888103, 3248222580,
   3835390401, 4022224774, 264347078, 604807628, 770255983, 1249150122, 1555081692, 1996064986,
   2554220882, 2821834349, 2952996808, 3210313671, 3336571891, 3584528711, 113926993, 338241895,
   666307205, 773529912, 1294757372, 1396182291, 1695183700, 1986661051, 2177026350, 2456956037,
   2730485921, 2820302411, 3259730800, 3345764771, 3516065817, 3600352804, 4094571909, 275423344,
   430227734, 506948616, 659060556, 883997877, 958139571, 1322822218, 1537002063, 1747873779,
   1955562222, 2024104815, 2227730452, 2361852424, 2428436474, 2756734187, 3204031479, 3329325298]

/-- Initial hash state of SHA-256 (fractional square roots of the first 8 primes). -/
def sha256H0 : List Nat :=
  [1779033703, 3144134277, 1013904242, 2773480762, 1359893119, 2600822924, 528734635, 1541459225]

/-- Big-endian byte serialisation of a number into w bytes. -/
def beBytes (w n : Nat) : List Nat :=
  (List.range w).map (fun i => (n >>> (8 * (w - 1 - i))) % 256)

/-- Big-endian word value of a byte list. -/
def beWord (bs : List Nat) : Nat := bs.foldl (fun a b => a * 256 + b) 0

/-- FIPS 180-4 message padding: append 0x80, zero bytes up to 56 mod 64,
then the bit length in 8 big-endian bytes. -/
def padMessage (msg : List Nat) : List Nat :=
  let zeros := (119 - msg.length % 64) % 64
  msg ++ [128] ++ List.replicate zeros 0 ++ beBytes 8 (8 * msg.length)

/-- Fuel-driven block splitter; the fuel bounds the number of blocks so the
recursion is structural and the function reduces inside the kernel. -/
def chunks64Go : Nat → List Nat → List (List Nat)
  | _, [] => []
  | 0, _ :: _ => []
  | fuel + 1, b :: l => ((b :: l).take 64) :: chunks64Go fuel (l.drop 63)

/-- Split a byte list into successive 64-byte blocks. -/
def chunks64 (l : List Nat) : List (List Nat) := chunks64Go l.length l

/-- First 16 message-schedule words of a 64-byte block, big endian. -/
def blockWords (block : List Nat) : List Nat :=
  (List.range 16).map (fun i => beWord ((block.drop (4 * i)).take 4))

/-- Message-schedule extension from 16 to 64 words. -/
def extendSchedule (w : List Nat) : List Nat :=
  (List.range 48).foldl
    (fun w i =>
      w ++ [add32 (ssig1 (w.getD (i + 14) 0))
              (add32 (w.getD (i + 9) 0)
                (add32 (ssig0 (w.getD (i + 1) 0)) (w.getD i 0)))])
    w

/-- One SHA-256 round on the state [a,b,c,d,e,f,g,h]. -/
def roundStep (s : List Nat) (kw : Nat × Nat) : List Nat :=
  match s with
  | [a, b, c, d, e, f, g, h] =>
    let t1 := add32 h (add32 (bsig1 e) (add32 (chf e f g) (add32 kw.1 kw.2)))
    let t2 := add32 (bsig0 a) (majf a b c)
    [add32 t1 t2, a, b, c, add32 d t1, e, f, g]
  | _ => s

/-- Compression of one 64-byte block into the running hash state. -/
def compressBlock (h : List Nat) (block : List Nat) : List Nat :=
  let ws := extendSchedule (blockWords block)
  let s := (sha256K.zip ws).foldl roundStep h
  (h.zip s).map (fun p => add32 p.1 p.2)

/-- SHA-256 digest of a byte list, as 32 bytes. -/
def sha256 (msg : List Nat) : List Nat :=
  (((chunks64 (padMessage msg)).foldl compressBlock sha256H0).map (beBytes 4)).flatten

/-- Hexadecimal digit character, lowercase, as produced by the Rust hex crate. -/
def hexDigit (n : Nat) : Char :=
  if n < 10 then Char.ofNat (48 + n) else Char.ofNat (87 + n)

/-- Lowercase hex encoding of a byte list, the Lean counterpart of
hex::encode applied to a digest. -/
def hexEncode (bs : List Nat) : String :=
  String.mk ((bs.map (fun b => [hexDigit (b / 16), hexDigit (b % 16)])).flatten)

/-! ## Service identifiers

The workspace holds two variants of the engine.  The src-tauri variant
(src-tauri/src/process_manager.rs) defines ServiceId with Memshrew; the
desktop variant (apps/desktop/src-tauri) replaces Memshrew by Espo. -/

/-- ServiceId of src-tauri/src/process_manager.rs. -/
inductive SId where
  | Bitcoind
  | Metashrew
  | Memshrew
  | Ord
  | Esplora
  | JsonRpc
deriving DecidableEq, Repr

/-- ServiceId::all of src-tauri/src/process_manager.rs. -/
def SId.all : List SId :=
  [.Bitcoind, .Metashrew, .Memshrew, .Ord, .Esplora, .JsonRpc]

/-- ServiceId::display_name of src-tauri/src/process_manager.rs. -/
def SId.display_name : SId → String
  | .Bitcoind => "Bitcoin Core"
  | .Metashrew => "Metashrew (Indexer)"
  | .Memshrew => "Memshrew (Mempool)"
  | .Ord => "Ord (Inscriptions)"
  | .Esplora => "Esplora (Explorer)"
  | .JsonRpc => "Alkanes JSON-RPC"

/-- ServiceId::binary_name of src-tauri/src/process_manager.rs. -/
def SId.binary_name : SId → String
  | .Bitcoind => "bitcoind"
  | .Metashrew => "rockshrew-mono"
  | .Memshrew => "memshrew-p2p"
  | .Ord => "ord"
  | .Esplora => "flextrs"
  | .JsonRpc => "jsonrpc"

/-- ServiceId::id of src-tauri/src/process_manager.rs, the lowercase id
used for log filtering. -/
def SId.idStr : SId → String
  | .Bitcoind => "bitcoind"
  | .Metashrew => "metashrew"
  | .Memshrew => "memshrew"
  | .Ord => "ord"
  | .Esplora => "esplora"
  | .JsonRpc => "alkanes-jsonrpc"

/-- ServiceId of the desktop crate.  Modelled from the spec: the desktop
process_manager.rs defining this enum is not among the provided sources;
its variants are those matched exhaustively by the desktop
binary_manager.rs (Bitcoind, Metashrew, Ord, Esplora, Espo, JsonRpc). -/
inductive DServiceId where
  | Bitcoind
  | Metashrew
  | Ord
  | Esplora
  | Espo
  | JsonRpc
deriving DecidableEq, Repr

/-- Modelled from the spec: display names of the desktop services.  The
desktop process_manager.rs holding them is not among the provided
sources; the names follow the sibling src-tauri implementation with Espo
as the extra service.  Only human-readable error text depends on them. -/
def DServiceId.display_name : DServiceId → String
  | .Bitcoind => "Bitcoin Core"
  | .Metashrew => "Metashrew (Indexer)"
  | .Ord => "Ord (Inscriptions)"
  | .Esplora => "Esplora (Explorer)"
  | .Espo => "Espo"
  | .JsonRpc => "Alkanes JSON-RPC"

/-! ## Release descriptors -/

/-- BinaryRelease of binary_manager.rs (both variants). -/
structure BinaryRelease where
  version : String
  url : String
  sha256 : String
  size_bytes : Nat
  archive_path : Option String
  is_archive : Bool
deriving DecidableEq, Repr

/-- Bitcoin Core url and checksum selection of get_releases_for_platform,
identical in both variants. -/
def btcUrlSha (os arch : String) : String × String :=
  if os = "darwin" ∧ arch = "arm64" then
    ("https://bitcoincore.org/bin/bitcoin-core-29.2/bitcoin-29.2-arm64-apple-darwin.tar.gz",
     "bd07450f76d149d094842feab58e6240673120c8a317a1c51d45ba30c34e85ef")
  else if os = "darwin" ∧ arch = "x86_64" then
    ("https://bitcoincore.org/bin/bitcoin-core-29.2/bitcoin-29.2-x86_64-apple-darwin.tar.gz",
     "69ca05fbe838123091cf4d6d2675352f36cf55f49e2e6fb3b52fcf32b5e8dd9f")
  else if os = "linux" ∧ arch = "x86_64" then
    ("https://bitcoincore.org/bin/bitcoin-core-29.2/bitcoin-29.2-x86_64-linux-gnu.tar.gz",
     "1fd58d0ae94b8a9e21bbaeab7d53395a44976e82bd5492b0a894826c135f9009")
  else if os = "linux" ∧ arch = "arm64" then
    ("https://bitcoincore.org/bin/bitcoin-core-29.2/bitcoin-29.2-aarch64-linux-gnu.tar.gz",
     "f88f72a3c5bf526581aae573be8c1f62133eaecfe3d34646c9ffca7b79dfdc7a")
  else
    ("https://bitcoincore.org/bin/bitcoin-core-29.2/bitcoin-29.2-x86_64-linux-gnu.tar.gz",
     "1fd58d0ae94b8a9e21bbaeab7d53395a44976e82bd5492b0a894826c135f9009")

/-- Ord url and checksum selection of get_releases_for_platform,
identical in both variants. -/
def ordUrlSha (os arch : String) : String × String :=
  if os = "darwin" ∧ arch = "arm64" then
    ("https://github.com/ordinals/ord/releases/download/0.22.1/ord-0.22.1-aarch64-apple-darwin.tar.gz",
     "f4a6c9e1bdbc00b0fb01e053078ce9577aa83495dbcd396e8c9df1ad66064037")
  else if os = "darwin" ∧ arch = "x86_64" then
    ("https://github.com/ordinals/ord/releases/download/0.22.1/ord-0.22.1-x86_64-apple-darwin.tar.gz", "")
  else if os = "linux" ∧ arch = "x86_64" then
    ("https://github.com/ordinals/ord/releases/download/0.22.1/ord-0.22.1-x86_64-unknown-linux-gnu.tar.gz", "")
  else
    ("https://github.com/ordinals/ord/releases/download/0.22.1/ord-0.22.1-x86_64-unknown-linux-gnu.tar.gz", "")

/-- Release base url of the src-tauri variant. -/
def isomerBase0 : String := "https://github.com/jonatns/isomer/releases/download/binaries-v0.1.0"

/-- Release base url of the desktop variant. -/
def isomerBase3 : String := "https://github.com/jonatns/isomer/releases/download/binaries-v0.1.3"

/-- get_releases_for_platform of src-tauri/src/binary_manager.rs, as the
final map after all inserts (Memshrew is inserted twice there; the second
insert wins, as in HashMap::insert). -/
def releasesForPlatform (os arch : String) : SId → BinaryRelease
  | .Bitcoind =>
    { version := "29.2", url := (btcUrlSha os arch).1, sha256 := (btcUrlSha os arch).2,
      size_bytes := 45000000, archive_path := some "bitcoin-29.2/bin/bitcoind", is_archive := true }
  | .Ord =>
    { version := "0.22.1", url := (ordUrlSha os arch).1, sha256 := (ordUrlSha os arch).2,
      size_bytes := 15000000, archive_path := some "ord", is_archive := true }
  | .Metashrew =>
    { version := "9.0.1-rc.2",
      url := isomerBase0 ++ "/rockshrew-mono-v9.0.1-rc.2-" ++ os ++ "-" ++ arch,
      sha256 := if os = "darwin" ∧ arch = "arm64" then
          "c930a6a786d7491c5cf418c260ce7f0e230eaad810df7fd2b53945c772e54fef" else "",
      size_bytes := 25000000, archive_path := none, is_archive := false }
  | .Memshrew =>
    { version := "9.0.1",
      url := isomerBase0 ++ "/memshrew-p2p-v9.0.1-" ++ os ++ "-" ++ arch,
      sha256 := if os = "darwin" ∧ arch = "arm64" then
          "30dd4c989e7472e7a011777ccdf5ab8d43b7c42092ab6f85a72a7127f8fb6601" else "",
      size_bytes := 20000000, archive_path := none, is_archive := false }
  | .Esplora =>
    { version := "0.4.1",
      url := isomerBase0 ++ "/flextrs-0.4.1-" ++ os ++ "-" ++ arch,
      sha256 := if os = "darwin" ∧ arch = "arm64" then
          "ae38e7a5bc3b10b7b0fd74f84288ae2470972cb1f227029c8d9d54682119cafe" else "",
      size_bytes := 15000000, archive_path := none, is_archive := false }
  | .JsonRpc =>
    { version := "0.1.0",
      url := isomerBase0 ++ "/alkanes-jsonrpc-bundle.tar.gz",
      sha256 := "22a3743f0fecc69a1c123bfc5dd4d30cd32a7049f56b6fd7ef1eb487dda44aca",
      size_bytes := 10000000, archive_path := none, is_archive := true }

/-- get_releases_for_platform of apps/desktop/src-tauri/src/binary_manager.rs. -/
def desktopReleases (os arch : String) : DServiceId → BinaryRelease
  | .Bitcoind =>
    { version := "29.2", url := (btcUrlSha os arch).1, sha256 := (btcUrlSha os arch).2,
      size_bytes := 45000000, archive_path := some "bitcoin-29.2/bin/bitcoind", is_archive := true }
  | .Ord =>
    { version := "0.22.1", url := (ordUrlSha os arch).1, sha256 := (ordUrlSha os arch).2,
      size_bytes := 15000000, archive_path := some "ord", is_archive := true }
  | .Metashrew =>
    { version := "9.0.2-alpha.1",
      url := isomerBase3 ++ "/rockshrew-mono-" ++ os ++ "-" ++ arch,
      sha256 := "",
      size_bytes := 25000000, archive_path := none, is_archive := false }
  | .Esplora =>
    { version := "0.4.1",
      url := isomerBase3 ++ "/flextrs-" ++ os ++ "-" ++ arch,
      sha256 := if os = "darwin" ∧ arch = "arm64" then
          "ae38e7a5bc3b10b7b0fd74f84288ae2470972cb1f227029c8d9d54682119cafe" else "",
      size_bytes := 15000000, archive_path := none, is_archive := false }
  | .JsonRpc =>
    { version := "0.1.0",
      url := isomerBase3 ++ "/alkanes-jsonrpc-bundle.tar.gz",
      sha256 := "bedc8928c7c48eb45ab51f9094b06a732ee7542e091cf4e75fd902e8aea84a55",
      size_bytes := 10000000, archive_path := none, is_archive := true }
  | .Espo =>
    { version := "0.1.0",
      url := isomerBase3 ++ "/espo-" ++ os ++ "-" ++ arch,
      sha256 := "",
      size_bytes := 30000000, archive_path := none, is_archive := false }

/-! ## The desktop download pipeline

BinaryManager::download of apps/desktop/src-tauri/src/binary_manager.rs:
stream the body with progress callbacks, verify the checksum (manifest
entry first, embedded fallback second), install, ad-hoc sign on macOS,
then report completion.  External effects are an explicit environment:
the HTTP response, the received chunks, the outcome of archive decoding
and of filesystem writes, and the codesign invocation.  The filesystem
is tracked as the byte contents at the install path of the service
(Option: none when no file exists there). -/

/-- Environment of one download call: everything the Rust function
observes from the outside world. -/
structure DownloadEnv where
  /-- response.status().is_success() -/
  httpOk : Bool
  /-- response.content_length() -/
  contentLength : Option Nat
  /-- byte chunks successfully yielded by response.bytes_stream() -/
  chunks : List (List Nat)
  /-- error yielded by the stream after those chunks, if any -/
  chunkErr : Option String
  /-- outcome of extract_binary_from_tar_gz on the payload: the bytes of
  the matched entry, or its error -/
  extractEntry : Except String (List Nat)
  /-- outcome of Archive::unpack of a whole archive into the bin dir -/
  unpackRes : Except String Unit
  /-- contents at the install path after a successful whole-archive unpack
  (the archive may or may not hold a file at that exact path) -/
  unpackDest : Option (List Nat)
  /-- contents left at the install path when an install step fails midway -/
  failDest : Option (List Nat)
  /-- whether std::fs::write of the direct (non-archive) binary succeeds -/
  writeOk : Bool
  /-- whether the build targets macOS (cfg target_os = "macos") -/
  isMac : Bool
  /-- whether the codesign command itself could be run -/
  codesignRunOk : Bool

/-- Result of a download call: the returned Result, the final contents at
the install path, and the sequence of values passed to the progress
callback. -/
structure DownloadOut where
  result : Except String Unit
  dest : Option (List Nat)
  trace : List ℚ
deriving Repr

/-- Boolean success test for Except results. -/
def exceptIsOk : Except String Unit → Bool
  | .ok _ => true
  | .error _ => false

/-- Progress values reported inside the chunk loop: after each chunk,
downloaded / total_size * 0.9. -/
def cumProgress (total : Nat) : List (List Nat) → Nat → List ℚ
  | [], _ => []
  | c :: cs, acc =>
    (((acc + c.length : Nat) : ℚ) / ((total : Nat) : ℚ) * (9 / 10)) ::
      cumProgress total cs (acc + c.length)

/-- Character-level split on a separator character, the counterpart of
Rust str::split over one char; structurally recursive so that the kernel
can evaluate it on literals. -/
def splitChar (c : Char) : List Char → List Char → List (List Char)
  | acc, [] => [acc.reverse]
  | acc, x :: xs =>
    if x = c then acc.reverse :: splitChar c [] xs else splitChar c (x :: acc) xs

/-- Last path segment of a url: url.split of the slash character, then
last().unwrap_or(""). -/
def lastSegment (url : String) : String :=
  String.mk ((splitChar '/' [] url.data).getLastD [])

/-- Lowercase image of a string (ASCII letters mapped to lowercase),
used to state that two hex strings differ only in letter case. -/
def strToLower (s : String) : String := String.mk (s.data.map Char.toLower)

/-- get_checksum_for_file of the desktop binary_manager.rs: lookup of the
artifact filename in the cached manifest. -/
def getChecksumForFile (cache : Option (List (String × String))) (filename : String) :
    Option String :=
  cache.bind (fun c => (c.find? (fun p => p.1 == filename)).map (fun p => p.2))

/-- Expected checksum selection in the desktop download: prefer the
manifest entry for the artifact filename, fall back to the embedded
release checksum when non-empty. -/
def expectedChecksum (cache : Option (List (String × String))) (release : BinaryRelease) :
    Option String :=
  (getChecksumForFile cache (lastSegment release.url)).orElse
    (fun _ => if release.sha256 ≠ "" then some release.sha256 else none)

/-- Installation step of the desktop download, after verification:
extract one entry, unpack a whole archive, or write the payload
directly.  Returns the Result and the new contents at the install
path. -/
def installStep (release : BinaryRelease) (env : DownloadEnv) (payload : List Nat) :
    Except String Unit × Option (List Nat) :=
  if release.is_archive then
    match release.archive_path with
    | some _ =>
      match env.extractEntry with
      | .ok c => (.ok (), some c)
      | .error e => (.error e, env.failDest)
    | none =>
      match env.unpackRes with
      | .ok _ => (.ok (), env.unpackDest)
      | .error e => (.error e, env.failDest)
  else
    if env.writeOk then (.ok (), some payload)
    else (.error "Failed to write binary", env.failDest)

/-- Tail of the desktop download after checksum verification: install,
ad-hoc sign on macOS (a codesign invocation failure is an error, a
non-success signing status only a warning), then the final 1.0
callback. -/
def downloadTail (release : BinaryRelease) (env : DownloadEnv) (payload : List Nat)
    (tr : List ℚ) : DownloadOut :=
  match installStep release env payload with
  | (.error e, d) => { result := .error e, dest := d, trace := tr }
  | (.ok _, d) =>
    if env.isMac ∧ ¬ env.codesignRunOk then
      { result := .error "Failed to run codesign", dest := d, trace := tr }
    else
      { result := .ok (), dest := d, trace := tr ++ [1] }

/-- BinaryManager::download of apps/desktop/src-tauri/src/binary_manager.rs,
over the given release, cached checksum manifest, environment, and prior
contents at the install path.  The name argument is the service display
name used in error messages. -/
def download (name : String) (release : BinaryRelease)
    (cache : Option (List (String × String))) (env : DownloadEnv)
    (dest0 : Option (List Nat)) : DownloadOut :=
  let tr0 : List ℚ := [0]
  if env.httpOk = false then
    { result := .error "Download failed with status", dest := dest0, trace := tr0 }
  else
    let total := env.contentLength.getD release.size_bytes
    let tr1 := tr0 ++ cumProgress total env.chunks 0
    match env.chunkErr with
    | some e =>
      { result := .error ("Failed to read chunk: " ++ e), dest := dest0, trace := tr1 }
    | none =>
      let payload := env.chunks.flatten
      let tr2 := tr1 ++ [(9 : ℚ) / 10]
      match expectedChecksum cache release with
      | some expected =>
        if hexEncode (sha256 payload) ≠ expected then
          { result := .error ("Checksum verification failed for " ++ name), dest := dest0,
            trace := tr2 }
        else downloadTail release env payload tr2
      | none => downloadTail release env payload tr2

/-- Download of one desktop service: BinaryManager::download applied to
the release resolved for the platform. -/
def desktopDownload (os arch : String) (s : DServiceId)
    (cache : Option (List (String × String))) (env : DownloadEnv)
    (dest0 : Option (List Nat)) : DownloadOut :=
  download (DServiceId.display_name s) (desktopReleases os arch s) cache env dest0

/-! ## Install-status check of the src-tauri binary manager

BinaryManager::check_binary of src-tauri/src/binary_manager.rs.  The
filesystem and the version-probe subprocess are environment inputs. -/

/-- BinaryStatus of binary_manager.rs. -/
inductive BinaryStatus where
  | NotInstalled
  | Downloading (progress : ℚ)
  | Installed (version : String)
  | UpdateAvailable (current latest : String)
deriving DecidableEq, Repr

/-- BinaryInfo of binary_manager.rs. -/
structure BinaryInfo where
  service : String
  status : BinaryStatus
  path : String
  size_bytes : Option Nat
deriving DecidableEq, Repr

/-- Environment of the install-status check: the bin directory path, file
existence and size at a path, and the stdout of the version probe when
that subprocess ran and exited successfully. -/
structure CheckEnv where
  binDir : String
  fsExists : String → Bool
  fileSize : String → Option Nat
  probe : SId → Option String

/-- get_binary_path: bin directory joined with the service binary name. -/
def binaryPath (binDir : String) (s : SId) : String := binDir ++ "/" ++ s.binary_name

/-- Version-string cleanup of run_version_cmd: first line of trimmed
stdout, the part after "version " for Bitcoin Core, otherwise the part
after the last space, then leading v characters stripped. -/
def parseVersionLine (out : String) : String :=
  let t := out.trim
  let line := if t = "" then "unknown" else (t.splitOn ("\n")).headD "unknown"
  let cleaned :=
    if (line.splitOn ("Bitcoin Core")).length ≥ 2 then
      match line.splitOn ("version ") with
      | _ :: r :: rest => (String.intercalate "version " (r :: rest)).trim
      | _ => line
    else
      let parts := line.splitOn (" ")
      if parts.length ≥ 2 then (parts.getLastD "").trim else line
  String.mk (cleaned.toList.dropWhile (fun c => c == 'v'))

/-- get_binary_version of src-tauri/src/binary_manager.rs: none when the
file is absent or the service has no version probe (JsonRpc), otherwise
the cleaned first line of the probe output. -/
def get_binary_version (env : CheckEnv) (s : SId) : Option String :=
  if env.fsExists (binaryPath env.binDir s) = false then none
  else
    match s with
    | .JsonRpc => none
    | _ => (env.probe s).map parseVersionLine

/-- BinaryManager::check_binary of src-tauri/src/binary_manager.rs. -/
def check_binary (os arch : String) (env : CheckEnv) (s : SId) : BinaryInfo :=
  let path := binaryPath env.binDir s
  let ex := env.fsExists path
  let latest := (releasesForPlatform os arch s).version
  let status :=
    if ex then
      let current := (get_binary_version env s).getD "unknown"
      if current ≠ latest then BinaryStatus.UpdateAvailable current latest
      else BinaryStatus.Installed current
    else BinaryStatus.NotInstalled
  { service := s.display_name, status := status, path := path,
    size_bytes := if ex then env.fileSize path else none }

/-! ## Process supervisor

ProcessManager of src-tauri/src/process_manager.rs.  The process map
(processes: HashMap<ServiceId, ProcessInfo>) is a function from SId to
an optional record; OS effects (spawn, signals, wait, try_wait) are an
environment.  Signals and sleeps inside stop_service have no observable
effect in the model beyond the wait outcome. -/

/-- ServiceStatus of state.rs. -/
inductive ServiceStatus where
  | Stopped
  | Starting
  | Running
  | Error (reason : String)
deriving DecidableEq, Repr

/-- ProcessInfo of process_manager.rs: the child handle is reduced to its
pid, started_at to a Nat instant. -/
structure ProcessInfo where
  pid : Nat
  startedAt : Nat
  status : ServiceStatus
deriving DecidableEq, Repr

/-- State of the supervisor: the process map. -/
abbrev PMState := SId → Option ProcessInfo

/-- Pointwise update of the process map. -/
def PMState.set (st : PMState) (s : SId) (v : Option ProcessInfo) : PMState :=
  fun t => if t = s then v else st t

/-- LogEntry of process_manager.rs. -/
structure LogEntry where
  service : String
  timestamp : Nat
  message : String
  is_stderr : Bool
deriving DecidableEq, Repr

/-- MAX_LOG_ENTRIES of process_manager.rs. -/
def MAX_LOG_ENTRIES : Nat := 1000

/-- ProcessManager::get_logs: filter by service when requested, then
return the last limit entries. -/
def get_logs (buffer : List LogEntry) (service_filter : Option String) (limit : Nat) :
    List LogEntry :=
  let filtered :=
    match service_filter with
    | some f => buffer.filter (fun l : LogEntry => l.service == f)
    | none => buffer
  filtered.drop (filtered.length - limit)

/-- ProcessManager::add_log_entry: push, then drain the oldest entries
down to MAX_LOG_ENTRIES. -/
def add_log_entry (buffer : List LogEntry) (entry : LogEntry) : List LogEntry :=
  let l := buffer ++ [entry]
  if MAX_LOG_ENTRIES < l.length then l.drop (l.length - MAX_LOG_ENTRIES) else l

/-- Environment of start_service: the bin directory, file existence, and
the outcome of Command::spawn per service. -/
structure StartEnv where
  binDir : String
  fsExists : String → Bool
  spawnOk : SId → Bool
  spawnErrMsg : SId → String
  pidOf : SId → Nat
  nowOf : SId → Nat

/-- ProcessManager::start_service: reject when already tracked, then when
the binary is missing; otherwise spawn, wire the two log readers, and
record a ProcessInfo with status Starting. -/
def start_service (env : StartEnv) (st : PMState) (s : SId) :
    Except String Unit × PMState :=
  if (st s).isSome then
    (.error (s.display_name ++ " is already running"), st)
  else if env.fsExists (binaryPath env.binDir s) = false then
    (.error ("Binary not found: " ++ binaryPath env.binDir s ++
      ". Please download binaries first."), st)
  else if env.spawnOk s = false then
    (.error ("Failed to start " ++ s.display_name ++ ": " ++ env.spawnErrMsg s), st)
  else
    (.ok (), st.set s (some { pid := env.pidOf s, startedAt := env.nowOf s,
                              status := ServiceStatus.Starting }))

/-- Start order of ProcessManager::start_all. -/
def startOrder : List SId :=
  [.Bitcoind, .Metashrew, .Memshrew, .Ord, .Esplora, .JsonRpc]

/-- Outcome of a start or stop sequence: the returned Result, the final
process map, and the services on which the per-service operation acted. -/
structure SeqOut where
  result : Except String Unit
  state : PMState
  acted : List SId

/-- Iteration of start_all over a service list: start each in turn,
propagating the first error (the ? operator).  The wallet bootstrap and
the settle delays after each start affect no supervisor state and are
logged only, so they leave no trace here. -/
def startSeq (env : StartEnv) : PMState → List SId → SeqOut
  | st, [] => { result := .ok (), state := st, acted := [] }
  | st, s :: rest =>
    match start_service env st s with
    | (.error e, st1) => { result := .error e, state := st1, acted := [s] }
    | (.ok _, st1) =>
      let o := startSeq env st1 rest
      { o with acted := s :: o.acted }

/-- ProcessManager::start_all. -/
def start_all (env : StartEnv) (st : PMState) : SeqOut := startSeq env st startOrder

/-- Environment of stop_service: whether child.wait() fails for the
service being stopped, and its error text. -/
structure StopEnv where
  waitFails : SId → Bool
  waitErrMsg : SId → String

/-- ProcessManager::stop_service: a no-op success when the service is not
tracked; otherwise the record is removed (HashMap::remove) before
signalling, and the wait outcome decides the Result.  The record removal
happens in both outcomes. -/
def stop_service (env : StopEnv) (st : PMState) (s : SId) :
    Except String Unit × PMState × Bool :=
  match st s with
  | some _ =>
    let st1 := st.set s none
    if env.waitFails s then
      (.error ("Error waiting for " ++ s.display_name ++ ": " ++ env.waitErrMsg s), st1, true)
    else
      (.ok (), st1, true)
  | none => (.ok (), st, false)

/-- Stop order of ProcessManager::stop_all, the exact reverse of the
start order. -/
def stopOrder : List SId :=
  [.JsonRpc, .Esplora, .Ord, .Memshrew, .Metashrew, .Bitcoind]

/-- Iteration of stop_all over a service list, propagating the first
error (the ? operator).  acted records the services whose tracked record
was actually stopped (signalled and awaited). -/
def stopSeq (env : StopEnv) : PMState → List SId → SeqOut
  | st, [] => { result := .ok (), state := st, acted := [] }
  | st, s :: rest =>
    match stop_service env st s with
    | (.error e, st1, _) => { result := .error e, state := st1, acted := [s] }
    | (.ok _, st1, acted) =>
      let o := stopSeq env st1 rest
      { o with acted := if acted then s :: o.acted else o.acted }

/-- ProcessManager::stop_all. -/
def stop_all (env : StopEnv) (st : PMState) : SeqOut := stopSeq env st stopOrder

/-- Outcome of Child::try_wait as observed by get_service_info. -/
inductive PollRes where
  | exited (success : Bool) (code : Option Int)
  | stillRunning
  | pollErr (msg : String)

/-- Environment of get_service_info: the non-blocking exit poll and the
current instant. -/
structure StatusEnv where
  poll : SId → PollRes
  now : Nat

/-- Rust Debug rendering of an optional exit code. -/
def codeStr : Option Int → String
  | some n => "Some(" ++ toString n ++ ")"
  | none => "None"

/-- Status triple of ProcessManager::get_service_info: lifecycle state,
pid, and uptime.  Untracked services report Stopped. -/
def serviceStatusOf (env : StatusEnv) (st : PMState) (s : SId) :
    ServiceStatus × Option Nat × Option Nat :=
  match st s with
  | some info =>
    match env.poll s with
    | .exited true _ => (ServiceStatus.Stopped, none, none)
    | .exited false code =>
      (ServiceStatus.Error ("Exited with code: " ++ codeStr code), none, none)
    | .stillRunning => (ServiceStatus.Running, some info.pid, some (env.now - info.startedAt))
    | .pollErr m => (ServiceStatus.Error ("Status check failed: " ++ m), none, none)
  | none => (ServiceStatus.Stopped, none, none)

/-! ## Concrete sample inputs used by witnesses and counterexamples -/

/-- Sample process record. -/
def demoInfo : ProcessInfo := { pid := 100, startedAt := 0, status := ServiceStatus.Starting }

/-- Sample state tracking JsonRpc and Bitcoind. -/
def stJB : PMState :=
  fun t => if t = SId.JsonRpc ∨ t = SId.Bitcoind then some demoInfo else none

/-- Stop environment where waiting on the JsonRpc child fails. -/
def envFailJson : StopEnv :=
  { waitFails := fun t => t == SId.JsonRpc, waitErrMsg := fun _ => "boom" }

/-- Stop environment where no wait fails. -/
def envNoFail : StopEnv := { waitFails := fun _ => false, waitErrMsg := fun _ => "" }

/-- Empty process map. -/
def emptyPM : PMState := fun _ => none

/-- Start environment where spawning Ord fails and everything else works. -/
def envFailOrd : StartEnv :=
  { binDir := "bin", fsExists := fun _ => true, spawnOk := fun t => !(t == SId.Ord),
    spawnErrMsg := fun _ => "boom", pidOf := fun _ => 7, nowOf := fun _ => 3 }

/-- Start environment where every spawn works. -/
def envStartOk : StartEnv :=
  { binDir := "bin", fsExists := fun _ => true, spawnOk := fun _ => true,
    spawnErrMsg := fun _ => "", pidOf := fun _ => 7, nowOf := fun _ => 3 }

/-- Install-status environment: every file present, no probe output. -/
def envAllFiles : CheckEnv :=
  { binDir := "bin", fsExists := fun _ => true, fileSize := fun _ => some 5,
    probe := fun _ => none }

/-- Sample log entries. -/
def logA : LogEntry := { service := "bitcoind", timestamp := 1, message := "a", is_stderr := false }

/-- Second sample log entry. -/
def logB : LogEntry := { service := "ord", timestamp := 2, message := "b", is_stderr := true }

/-- Download environment of a successful empty-body fetch with no archive
handling and no macOS signing. -/
def envPlain : DownloadEnv :=
  { httpOk := true, contentLength := some 0, chunks := [], chunkErr := none,
    extractEntry := Except.error "unused", unpackRes := Except.ok (), unpackDest := none,
    failDest := none, writeOk := true, isMac := false, codesignRunOk := true }

/-- Body of 26,000,000 zero bytes, the size of a realistic rockshrew-mono
build, which is larger than the 25,000,000-byte fallback estimate. -/
def bigChunk : List Nat := List.replicate 26000000 0

/-- Download environment with no Content-Length header and a body larger
than the release size estimate. -/
def envNoLen : DownloadEnv :=
  { httpOk := true, contentLength := none, chunks := [bigChunk], chunkErr := none,
    extractEntry := Except.error "unused", unpackRes := Except.ok (), unpackDest := none,
    failDest := none, writeOk := true, isMac := false, codesignRunOk := true }

/-- Lowercase hex SHA-256 digest of the empty payload. -/
def emptyDigest : String := "e3b0c44298fc1c149afbf4c8996fb92427ae41e4649b934ca495991b7852b855"

/-- The same digest with the letters in uppercase. -/
def emptyDigestUp : String := "E3B0C44298FC1C149AFBF4C8996FB92427AE41E4649B934CA495991B7852B855"

/-- Checksum manifest mapping the Metashrew artifact filename for
linux/x86_64 to the uppercase digest. -/
def cacheUpper : Option (List (String × String)) :=
  some [("rockshrew-mono-linux-x86_64", emptyDigestUp)]

/-- Checksum manifest mapping the same filename to the lowercase digest. -/
def cacheLower : Option (List (String × String)) :=
  some [("rockshrew-mono-linux-x86_64", emptyDigest)]

/-- Platform pairs handled explicitly by the Bitcoin Core branch of
get_releases_for_platform. -/
def knownPlatforms : List (String × String) :=
  [("darwin", "arm64"), ("darwin", "x86_64"), ("linux", "x86_64"), ("linux", "arm64")]

/-! ## Theorems -/

/-- C7: for every service, check_binary reports NotInstalled iff no file
exists at the resolved install path (bin directory joined with the
service binary filename); when a file exists the status is Installed or
UpdateAvailable, never NotInstalled. -/
theorem check_binary_notinstalled_iff (os arch : String) (env : CheckEnv) (s : SId) :
    ((check_binary os arch env s).status = BinaryStatus.NotInstalled ↔
      env.fsExists (binaryPath env.binDir s) = false) ∧
    (env.fsExists (binaryPath env.binDir s) = true →
      (∃ v, (check_binary os arch env s).status = BinaryStatus.Installed v) ∨
      (∃ c l, (check_binary os arch env s).status = BinaryStatus.UpdateAvailable c l)) := by
  unfold check_binary
  by_cases hex : env.fsExists (binaryPath env.binDir s) = true
  · simp only [hex]
    constructor
    · simp only [if_true]
      split
      · simp
      · simp
    · intro _
      simp only [if_true]
      split
      · right
        exact ⟨_, _, rfl⟩
      · left
        exact ⟨_, rfl⟩
  · have hex2 : env.fsExists (binaryPath env.binDir s) = false := by
      revert hex
      cases env.fsExists (binaryPath env.binDir s) <;> simp
    simp [hex2]

/-- C7 witness: with every file present, Bitcoind on linux/x86_64 is not
NotInstalled and the status is Installed or UpdateAvailable. -/
theorem check_binary_notinstalled_iff_witness :
    envAllFiles.fsExists (binaryPath envAllFiles.binDir SId.Bitcoind) = true ∧
    ((∃ v, (check_binary "linux" "x86_64" envAllFiles SId.Bitcoind).status =
        BinaryStatus.Installed v) ∨
     (∃ c l, (check_binary "linux" "x86_64" envAllFiles SId.Bitcoind).status =
        BinaryStatus.UpdateAvailable c l)) :=
  ⟨rfl, (check_binary_notinstalled_iff "linux" "x86_64" envAllFiles SId.Bitcoind).2 rfl⟩

/-- C8: get_logs with no filter and limit n returns at most n entries,
and whenever the buffer holds at least n entries it returns exactly the
final n entries of the buffer in their original append order (the buffer
is a suffix decomposition). -/
theorem get_logs_limit (buffer : List LogEntry) (n : Nat) :
    (get_logs buffer none n).length ≤ n ∧
    (n ≤ buffer.length →
      (get_logs buffer none n).length = n ∧
      buffer = buffer.take (buffer.length - n) ++ get_logs buffer none n) := by
  have hdef : get_logs buffer none n = buffer.drop (buffer.length - n) := rfl
  constructor
  · rw [hdef, List.length_drop]
    omega
  · intro h
    constructor
    · rw [hdef, List.length_drop]
      omega
    · rw [hdef, List.take_append_drop]

/-- C8 witness: on a two-entry buffer with limit 1, exactly one entry is
returned and the buffer splits into its first entry and the result. -/
theorem get_logs_limit_witness :
    1 ≤ [logA, logB].length ∧
    ((get_logs [logA, logB] none 1).length = 1 ∧
     [logA, logB] = [logA, logB].take ([logA, logB].length - 1) ++ get_logs [logA, logB] none 1) :=
  ⟨by decide, (get_logs_limit [logA, logB] 1).2 (by decide)⟩

/-- C10: after stop_service returns, whether success or error, the
record of the service is gone from the process map, a status query on
the resulting state reports Stopped, and a subsequent start of the same
service is not rejected (it succeeds whenever the binary exists and the
spawn works). -/
theorem stop_service_untracks (env : StopEnv) (st : PMState) (s : SId) :
    (stop_service env st s).2.1 s = none ∧
    (∀ qenv : StatusEnv, (serviceStatusOf qenv (stop_service env st s).2.1 s).1 =
      ServiceStatus.Stopped) ∧
    (∀ senv : StartEnv, senv.fsExists (binaryPath senv.binDir s) = true →
      senv.spawnOk s = true →
      (start_service senv (stop_service env st s).2.1 s).1 = Except.ok ()) := by
  have hnone : (stop_service env st s).2.1 s = none := by
    unfold stop_service
    cases hs : st s with
    | none => simpa using hs
    | some info =>
      by_cases hw : env.waitFails s <;> simp [hw, PMState.set]
  refine ⟨hnone, ?_, ?_⟩
  · intro qenv
    unfold serviceStatusOf
    rw [hnone]
  · intro senv hfs hsp
    unfold start_service
    rw [hnone]
    simp [hfs, hsp]

/-- C10 witness: stopping JsonRpc in the sample state leaves it
untracked, reported Stopped, and restartable. -/
theorem stop_service_untracks_witness :
    (stop_service envFailJson stJB SId.JsonRpc).2.1 SId.JsonRpc = none ∧
    envStartOk.fsExists (binaryPath envStartOk.binDir SId.JsonRpc) = true ∧
    envStartOk.spawnOk SId.JsonRpc = true ∧
    (start_service envStartOk (stop_service envFailJson stJB SId.JsonRpc).2.1
      SId.JsonRpc).1 = Except.ok () :=
  ⟨(stop_service_untracks envFailJson stJB SId.JsonRpc).1, rfl, rfl,
    (stop_service_untracks envFailJson stJB SId.JsonRpc).2.2 envStartOk rfl rfl⟩

/-- C1: for every service, when a checksum is available (manifest entry
or embedded fallback) and the hex SHA-256 digest of the downloaded
payload differs from it, download returns an error and the contents at
the install path are exactly what they were before the call. -/
theorem download_checksum_mismatch_leaves_dest (os arch : String) (s : DServiceId)
    (cache : Option (List (String × String))) (env : DownloadEnv)
    (dest0 : Option (List Nat)) (e : String)
    (hav : expectedChecksum cache (desktopReleases os arch s) = some e)
    (hne : hexEncode (sha256 env.chunks.flatten) ≠ e) :
    exceptIsOk (desktopDownload os arch s cache env dest0).result = false ∧
    (desktopDownload os arch s cache env dest0).dest = dest0 := by
  unfold desktopDownload download
  by_cases hh : env.httpOk = false
  · simp [hh, exceptIsOk]
  · simp only [hh, if_false]
    cases hc : env.chunkErr with
    | some m => simp [exceptIsOk]
    | none =>
      simp only [hav, hne, if_true, ite_not]
      simp [exceptIsOk, hne]

/-- C1 witness: Bitcoind on linux/x86_64 carries an embedded checksum;
an empty payload hashes to a different digest, so the download errors
and an absent install file stays absent. -/
theorem download_checksum_mismatch_leaves_dest_witness :
    expectedChecksum none (desktopReleases "linux" "x86_64" DServiceId.Bitcoind) =
      some "1fd58d0ae94b8a9e21bbaeab7d53395a44976e82bd5492b0a894826c135f9009" ∧
    hexEncode (sha256 envPlain.chunks.flatten) ≠
      "1fd58d0ae94b8a9e21bbaeab7d53395a44976e82bd5492b0a894826c135f9009" ∧
    exceptIsOk (desktopDownload "linux" "x86_64" DServiceId.Bitcoind none envPlain
      none).result = false ∧
    (desktopDownload "linux" "x86_64" DServiceId.Bitcoind none envPlain none).dest = none :=
  ⟨by decide, by decide,
    download_checksum_mismatch_leaves_dest "linux" "x86_64" DServiceId.Bitcoind none envPlain
      none "1fd58d0ae94b8a9e21bbaeab7d53395a44976e82bd5492b0a894826c135f9009"
      (by decide) (by decide)⟩

/-- C3 counterexample: an expected checksum that is the hex encoding of
the payload digest in uppercase (so a letter-case variant of the digest)
is rejected: the download returns an error instead of verifying. -/
theorem uppercase_checksum_rejected :
    strToLower emptyDigestUp = hexEncode (sha256 (List.flatten envPlain.chunks)) ∧
    exceptIsOk (desktopDownload "linux" "x86_64" DServiceId.Metashrew cacheUpper envPlain
      none).result = false := by
  constructor
  · decide
  · decide

/-- C3 amended: checksum verification compares the lowercase hex digest
for exact string equality.  For a non-archive release with a working
write and no macOS signing, the download succeeds exactly when the
expected checksum equals the lowercase hex digest of the payload; any
other expected string (in particular a different-case encoding of the
same digest) makes the download fail and leaves the install path
unchanged. -/
theorem checksum_compare_exact (os arch : String) (s : DServiceId)
    (cache : Option (List (String × String))) (env : DownloadEnv)
    (dest0 : Option (List Nat)) (e : String)
    (h1 : env.httpOk = true) (h2 : env.chunkErr = none)
    (h3 : expectedChecksum cache (desktopReleases os arch s) = some e)
    (h4 : (desktopReleases os arch s).is_archive = false)
    (h5 : env.writeOk = true) (h6 : env.isMac = false) :
    (exceptIsOk (desktopDownload os arch s cache env dest0).result = true ↔
      e = hexEncode (sha256 env.chunks.flatten)) ∧
    (e ≠ hexEncode (sha256 env.chunks.flatten) →
      (desktopDownload os arch s cache env dest0).dest = dest0) := by
  unfold desktopDownload download
  simp only [h1, h2, h3]
  by_cases hd : hexEncode (sha256 env.chunks.flatten) = e
  · subst hd
    simp [downloadTail, installStep, h4, h5, h6, exceptIsOk]
  · constructor
    · simp [hd, exceptIsOk, Ne.symm hd]
    · intro _
      simp [hd, exceptIsOk]

/-- C3 witness: the exact lowercase digest in the manifest lets the
Metashrew download verify and succeed. -/
theorem checksum_compare_exact_witness :
    envPlain.httpOk = true ∧ envPlain.chunkErr = none ∧
    expectedChecksum cacheLower (desktopReleases "linux" "x86_64" DServiceId.Metashrew) =
      some emptyDigest ∧
    (desktopReleases "linux" "x86_64" DServiceId.Metashrew).is_archive = false ∧
    exceptIsOk (desktopDownload "linux" "x86_64" DServiceId.Metashrew cacheLower envPlain
      none).result = true :=
  ⟨rfl, rfl, by decide, rfl,
    (checksum_compare_exact "linux" "x86_64" DServiceId.Metashrew cacheLower envPlain none
      emptyDigest rfl rfl (by decide) rfl rfl rfl).1.mpr (by decide)⟩

/-- C4 counterexample: on an unknown platform pair the Metashrew entry is
not the default linux/x86_64 entry (its url embeds the unknown platform
strings). -/
theorem unknown_platform_metashrew_not_default :
    releasesForPlatform "unknown" "unknown" SId.Metashrew ≠
      releasesForPlatform "linux" "x86_64" SId.Metashrew := by
  decide

/-- C4 amended: resolving the release table on a platform pair outside
the explicitly handled ones never fails: every service still has an
entry.  Bitcoind and Ord fall back to the full linux/x86_64 default
entry, and JsonRpc has a platform-independent entry that also equals
the default; every service keeps the default version, checksum, size
and archive fields, while the download urls of Metashrew, Memshrew and
Esplora embed the unresolved os and arch strings in their filename
instead of falling back to linux-x86_64. -/
theorem unknown_platform_entries (os arch : String)
    (h : (os, arch) ∉ knownPlatforms) :
    releasesForPlatform os arch SId.Bitcoind =
      releasesForPlatform "linux" "x86_64" SId.Bitcoind ∧
    releasesForPlatform os arch SId.Ord = releasesForPlatform "linux" "x86_64" SId.Ord ∧
    releasesForPlatform os arch SId.JsonRpc =
      releasesForPlatform "linux" "x86_64" SId.JsonRpc ∧
    (releasesForPlatform os arch SId.Metashrew).url =
      isomerBase0 ++ "/rockshrew-mono-v9.0.1-rc.2-" ++ os ++ "-" ++ arch ∧
    (releasesForPlatform os arch SId.Memshrew).url =
      isomerBase0 ++ "/memshrew-p2p-v9.0.1-" ++ os ++ "-" ++ arch ∧
    (releasesForPlatform os arch SId.Esplora).url =
      isomerBase0 ++ "/flextrs-0.4.1-" ++ os ++ "-" ++ arch ∧
    ∀ s : SId,
      (releasesForPlatform os arch s).version =
        (releasesForPlatform "linux" "x86_64" s).version ∧
      (releasesForPlatform os arch s).sha256 =
        (releasesForPlatform "linux" "x86_64" s).sha256 ∧
      (releasesForPlatform os arch s).size_bytes =
        (releasesForPlatform "linux" "x86_64" s).size_bytes ∧
      (releasesForPlatform os arch s).archive_path =
        (releasesForPlatform "linux" "x86_64" s).archive_path ∧
      (releasesForPlatform os arch s).is_archive =
        (releasesForPlatform "linux" "x86_64" s).is_archive := by
  simp only [knownPlatforms, List.mem_cons, List.not_mem_nil, or_false, not_or,
    Prod.mk.injEq, not_and] at h
  obtain ⟨hda, hdx, hlx, hla⟩ := h
  have hbtc : btcUrlSha os arch = btcUrlSha "linux" "x86_64" := by
    unfold btcUrlSha
    rw [if_neg, if_neg, if_neg, if_neg]
    · simp
    · intro hc
      exact hla hc.1 hc.2
    · intro hc
      exact hlx hc.1 hc.2
    · intro hc
      exact hdx hc.1 hc.2
    · intro hc
      exact hda hc.1 hc.2
  have hord : ordUrlSha os arch = ordUrlSha "linux" "x86_64" := by
    unfold ordUrlSha
    rw [if_neg, if_neg, if_neg]
    · simp
    · intro hc
      exact hlx hc.1 hc.2
    · intro hc
      exact hdx hc.1 hc.2
    · intro hc
      exact hda hc.1 hc.2
  have hsha : ∀ a b : String, (if os = "darwin" ∧ arch = "arm64" then a else b) = b := by
    intro a b
    rw [if_neg]
    intro hc
    exact hda hc.1 hc.2
  refine ⟨?_, ?_, rfl, rfl, rfl, rfl, ?_⟩
  · simp [releasesForPlatform, hbtc]
  · simp [releasesForPlatform, hord]
  · intro s
    cases s <;>
      simp [releasesForPlatform, hbtc, hord, hsha]

/-- C4 witness: windows/x86_64 is not an explicitly handled pair, and
the fallback facts hold there: Bitcoind and JsonRpc equal the default
entry, the Metashrew url embeds windows/x86_64, and its checksum field
still equals the default. -/
theorem unknown_platform_entries_witness :
    ("windows", "x86_64") ∉ knownPlatforms ∧
    releasesForPlatform "windows" "x86_64" SId.Bitcoind =
      releasesForPlatform "linux" "x86_64" SId.Bitcoind ∧
    releasesForPlatform "windows" "x86_64" SId.JsonRpc =
      releasesForPlatform "linux" "x86_64" SId.JsonRpc ∧
    (releasesForPlatform "windows" "x86_64" SId.Metashrew).url =
      isomerBase0 ++ "/rockshrew-mono-v9.0.1-rc.2-" ++ "windows" ++ "-" ++ "x86_64" ∧
    (releasesForPlatform "windows" "x86_64" SId.Metashrew).sha256 =
      (releasesForPlatform "linux" "x86_64" SId.Metashrew).sha256 :=
  ⟨by decide, (unknown_platform_entries "windows" "x86_64" (by decide)).1,
    (unknown_platform_entries "windows" "x86_64" (by decide)).2.2.1,
    (unknown_platform_entries "windows" "x86_64" (by decide)).2.2.2.1,
    ((unknown_platform_entries "windows" "x86_64" (by decide)).2.2.2.2.2.2
      SId.Metashrew).2.1⟩

/-- An erroring start_service leaves the process map unchanged. -/
theorem start_service_error_state (env : StartEnv) (st : PMState) (s : SId) (e : String)
    (st2 : PMState) (h : start_service env st s = (.error e, st2)) : st2 = st := by
  unfold start_service at h
  split_ifs at h <;> simp_all

/-- A successful start_service acted on an untracked service and inserted
its fresh record. -/
theorem start_service_ok_state (env : StartEnv) (st : PMState) (s : SId)
    (st2 : PMState) (h : start_service env st s = (.ok (), st2)) :
    st s = none ∧
    st2 = st.set s (some { pid := env.pidOf s, startedAt := env.nowOf s,
                           status := ServiceStatus.Starting }) := by
  unfold start_service at h
  split_ifs at h with h1 h2 h3
  · simp at h
  · simp at h
  · simp at h
  · constructor
    · cases hs : st s with
      | none => rfl
      | some i =>
        rw [hs] at h1
        simp at h1
    · exact (congrArg Prod.snd h).symm

/-- Decomposition of an erroring startSeq over a duplicate-free list: the
list splits around a failing service, the acted services are the prefix
plus the failing one, the error is exactly what start_service returns at
the final state, every prefix service is tracked afterwards, and every
service beyond the failure point is untouched. -/
theorem startSeq_error_decomp (env : StartEnv) :
    ∀ l : List SId, l.Nodup → ∀ st : PMState, ∀ e : String,
      (startSeq env st l).result = .error e →
      ∃ l₁ s l₂, l = l₁ ++ s :: l₂ ∧
        (startSeq env st l).acted = l₁ ++ [s] ∧
        start_service env (startSeq env st l).state s =
          (.error e, (startSeq env st l).state) ∧
        (∀ t ∈ l₁, ((startSeq env st l).state t).isSome) ∧
        (∀ t, t ∉ l₁ → t ≠ s → (startSeq env st l).state t = st t) := by
  intro l
  induction l with
  | nil =>
    intro _ st e h
    simp [startSeq] at h
  | cons s rest ih =>
    intro hnd st e h
    obtain ⟨hs_not_mem, hnd_rest⟩ := List.nodup_cons.mp hnd
    rcases hcall : start_service env st s with ⟨r, st1⟩
    cases r with
    | error e1 =>
      have hred : startSeq env st (s :: rest) =
          { result := .error e1, state := st1, acted := [s] } := by
        simp [startSeq, hcall]
      rw [hred] at h ⊢
      simp only at h
      have hst1 : st1 = st := start_service_error_state env st s e1 st1 hcall
      subst hst1
      refine ⟨[], s, rest, rfl, rfl, ?_, ?_, ?_⟩
      · simp only
        rw [hcall, h]
      · intro t ht
        simp at ht
      · intro t _ _
        rfl
    | ok u =>
      cases u
      have hred : startSeq env st (s :: rest) =
          { startSeq env st1 rest with
            acted := s :: (startSeq env st1 rest).acted } := by
        simp [startSeq, hcall]
      rw [hred] at h ⊢
      simp only at h ⊢
      obtain ⟨l₁, f, l₂, hsplit, hacted, hfail, htracked, hrest⟩ := ih hnd_rest st1 e h
      obtain ⟨hnone, hset⟩ := start_service_ok_state env st s st1 hcall
      have hs_notin_l₁ : s ∉ l₁ := by
        intro hmem
        exact hs_not_mem (hsplit ▸ List.mem_append_left _ hmem)
      have hs_ne_f : s ≠ f := by
        intro hef
        apply hs_not_mem
        rw [hsplit, hef]
        exact List.mem_append_right _ (List.mem_cons_self f l₂)
      refine ⟨s :: l₁, f, l₂, by rw [hsplit, List.cons_append],
        by rw [hacted, List.cons_append], hfail, ?_, ?_⟩
      · intro t ht
        rcases List.mem_cons.mp ht with hts | htl
        · subst hts
          rw [hrest t hs_notin_l₁ hs_ne_f, hset]
          simp [PMState.set]
        · exact htracked t htl
      · intro t htn htf
        have htns : t ≠ s := fun hts => htn (hts ▸ List.mem_cons_self s l₁)
        have htnl : t ∉ l₁ := fun hm => htn (List.mem_cons_of_mem s hm)
        rw [hrest t htnl htf, hset]
        simp [PMState.set, htns]

/-- The services acted on by a stop sequence follow the order of the
list walked. -/
theorem stopSeq_acted_sublist (env : StopEnv) :
    ∀ l : List SId, ∀ st : PMState, (stopSeq env st l).acted.Sublist l := by
  intro l
  induction l with
  | nil =>
    intro st
    simp [stopSeq]
  | cons s rest ih =>
    intro st
    rcases hcall : stop_service env st s with ⟨r, st1, acted⟩
    cases r with
    | error e =>
      have hred : stopSeq env st (s :: rest) =
          { result := .error e, state := st1, acted := [s] } := by
        simp [stopSeq, hcall]
      rw [hred]
      simp
    | ok u =>
      cases u
      have hred : stopSeq env st (s :: rest) =
          { stopSeq env st1 rest with
            acted := if acted then s :: (stopSeq env st1 rest).acted
                     else (stopSeq env st1 rest).acted } := by
        simp [stopSeq, hcall]
      rw [hred]
      simp only
      cases acted with
      | true =>
        rw [if_pos rfl]
        exact List.Sublist.cons₂ s (ih st1)
      | false =>
        rw [if_neg Bool.false_ne_true]
        exact List.Sublist.cons s (ih st1)

/-- Case analysis of stop_service. -/
theorem stop_service_cases (env : StopEnv) (st : PMState) (s : SId) :
    (st s = none ∧ stop_service env st s = (.ok (), st, false)) ∨
    ((st s).isSome ∧ env.waitFails s = false ∧
      stop_service env st s = (.ok (), st.set s none, true)) ∨
    ((st s).isSome ∧ env.waitFails s = true ∧
      stop_service env st s =
        (.error ("Error waiting for " ++ s.display_name ++ ": " ++ env.waitErrMsg s),
         st.set s none, true)) := by
  unfold stop_service
  cases hs : st s with
  | none => exact Or.inl ⟨rfl, rfl⟩
  | some i =>
    cases hw : env.waitFails s with
    | false => exact Or.inr (Or.inl ⟨rfl, rfl, by simp [hw]⟩)
    | true => exact Or.inr (Or.inr ⟨rfl, rfl, by simp [hw]⟩)

/-- Decomposition of an erroring stopSeq over a duplicate-free list: the
list splits around a failing service that was tracked at entry and whose
wait failed, and every service beyond the failure point keeps its entry
untouched. -/
theorem stopSeq_error_decomp (env : StopEnv) :
    ∀ l : List SId, l.Nodup → ∀ st : PMState, ∀ e : String,
      (stopSeq env st l).result = .error e →
      ∃ l₁ s l₂, l = l₁ ++ s :: l₂ ∧
        (st s).isSome ∧ env.waitFails s = true ∧
        (∀ t, t ∉ l₁ → t ≠ s → (stopSeq env st l).state t = st t) := by
  intro l
  induction l with
  | nil =>
    intro _ st e h
    simp [stopSeq] at h
  | cons s rest ih =>
    intro hnd st e h
    obtain ⟨hs_not_mem, hnd_rest⟩ := List.nodup_cons.mp hnd
    rcases stop_service_cases env st s with ⟨hnone, hcall⟩ | ⟨hsome, hw, hcall⟩ |
      ⟨hsome, hw, hcall⟩
    · have hred : stopSeq env st (s :: rest) =
          { stopSeq env st rest with acted := (stopSeq env st rest).acted } := by
        simp [stopSeq, hcall]
      rw [hred] at h ⊢
      simp only at h ⊢
      obtain ⟨l₁, f, l₂, hsplit, hfsome, hfw, hrest⟩ := ih hnd_rest st e h
      refine ⟨s :: l₁, f, l₂, by rw [hsplit, List.cons_append], hfsome, hfw, ?_⟩
      intro t htn htf
      exact hrest t (fun hm => htn (List.mem_cons_of_mem s hm)) htf
    · have hred : stopSeq env st (s :: rest) =
          { stopSeq env (st.set s none) rest with
            acted := s :: (stopSeq env (st.set s none) rest).acted } := by
        simp [stopSeq, hcall]
      rw [hred] at h ⊢
      simp only at h ⊢
      obtain ⟨l₁, f, l₂, hsplit, hfsome, hfw, hrest⟩ := ih hnd_rest (st.set s none) e h
      have hs_ne_f : s ≠ f := by
        intro hef
        apply hs_not_mem
        rw [hsplit, hef]
        exact List.mem_append_right _ (List.mem_cons_self f l₂)
      refine ⟨s :: l₁, f, l₂, by rw [hsplit, List.cons_append], ?_, hfw, ?_⟩
      · rw [show st.set s none f = st f by simp [PMState.set, Ne.symm hs_ne_f]] at hfsome
        exact hfsome
      · intro t htn htf
        have htns : t ≠ s := fun hts => htn (hts ▸ List.mem_cons_self s l₁)
        have htnl : t ∉ l₁ := fun hm => htn (List.mem_cons_of_mem s hm)
        rw [hrest t htnl htf]
        simp [PMState.set, htns]
    · have hred : stopSeq env st (s :: rest) =
          { result := .error ("Error waiting for " ++ s.display_name ++ ": " ++
              env.waitErrMsg s),
            state := st.set s none, acted := [s] } := by
        simp [stopSeq, hcall]
      rw [hred] at h ⊢
      simp only at h ⊢
      refine ⟨[], s, rest, rfl, hsome, hw, ?_⟩
      intro t _ htns
      simp [PMState.set, htns]

/-- A stop sequence never creates a record: entries that are none stay
none. -/
theorem stopSeq_state_none (env : StopEnv) :
    ∀ l : List SId, ∀ st : PMState, ∀ s : SId, st s = none →
      (stopSeq env st l).state s = none := by
  intro l
  induction l with
  | nil =>
    intro st s h
    simpa [stopSeq] using h
  | cons x rest ih =>
    intro st s h
    rcases stop_service_cases env st x with ⟨_, hcall⟩ | ⟨_, _, hcall⟩ | ⟨_, _, hcall⟩ <;>
      simp only [stopSeq, hcall]
    · exact ih st s h
    · exact ih (st.set x none) s (by simp [PMState.set, h])
    · simp [PMState.set, h]

/-- A successful stop sequence leaves every walked service untracked. -/
theorem stopSeq_ok_all_none (env : StopEnv) :
    ∀ l : List SId, ∀ st : PMState, (stopSeq env st l).result = .ok () →
      ∀ s ∈ l, (stopSeq env st l).state s = none := by
  intro l
  induction l with
  | nil =>
    intro st _ s hs
    simp at hs
  | cons x rest ih =>
    intro st h s hs
    rcases stop_service_cases env st x with ⟨hnone, hcall⟩ | ⟨_, _, hcall⟩ | ⟨_, _, hcall⟩
    · rw [show stopSeq env st (x :: rest) =
          { stopSeq env st rest with acted := (stopSeq env st rest).acted } by
            simp [stopSeq, hcall]] at h ⊢
      simp only at h ⊢
      rcases List.mem_cons.mp hs with hsx | hsr
      · exact hsx ▸ stopSeq_state_none env rest st x hnone
      · exact ih st h s hsr
    · rw [show stopSeq env st (x :: rest) =
          { stopSeq env (st.set x none) rest with
            acted := x :: (stopSeq env (st.set x none) rest).acted } by
            simp [stopSeq, hcall]] at h ⊢
      simp only at h ⊢
      rcases List.mem_cons.mp hs with hsx | hsr
      · exact hsx ▸ stopSeq_state_none env rest (st.set x none) x (by simp [PMState.set])
      · exact ih (st.set x none) h s hsr
    · rw [show stopSeq env st (x :: rest) =
          { result := .error ("Error waiting for " ++ x.display_name ++ ": " ++
              env.waitErrMsg x), state := st.set x none, acted := [x] } by
            simp [stopSeq, hcall]] at h
      simp at h

/-- A stop sequence over a fully untracked map does nothing. -/
theorem stopSeq_of_all_none (env : StopEnv) :
    ∀ l : List SId, ∀ st : PMState, (∀ s ∈ l, st s = none) →
      stopSeq env st l = { result := .ok (), state := st, acted := [] } := by
  intro l
  induction l with
  | nil =>
    intro st _
    simp [stopSeq]
  | cons x rest ih =>
    intro st h
    have hx : st x = none := h x (List.mem_cons_self x rest)
    have hcall : stop_service env st x = (.ok (), st, false) := by
      unfold stop_service
      rw [hx]
    simp only [stopSeq, hcall]
    rw [ih st (fun s hs => h s (List.mem_cons_of_mem x hs))]
    simp

/-- Every service occurs in the stop order. -/
theorem mem_stopOrder (s : SId) : s ∈ stopOrder := by
  cases s <;> simp [stopOrder]

/-- C6: a failing start aborts start_all at that service: the services
attempted are exactly the successfully started prefix plus the failing
one, the returned error is the one start_service produces there, every
prefix service is still tracked in the final map (no rollback), and
every later service in the order is untouched. -/
theorem start_all_stops_at_failure (env : StartEnv) (st : PMState) (e : String)
    (h : (start_all env st).result = .error e) :
    ∃ l₁ s l₂, startOrder = l₁ ++ s :: l₂ ∧
      (start_all env st).acted = l₁ ++ [s] ∧
      start_service env (start_all env st).state s =
        (.error e, (start_all env st).state) ∧
      (∀ t ∈ l₁, ((start_all env st).state t).isSome) ∧
      (∀ t ∈ l₂, (start_all env st).state t = st t) := by
  obtain ⟨l₁, s, l₂, hsplit, hacted, hfail, htracked, hrest⟩ :=
    startSeq_error_decomp env startOrder (by decide) st e h
  have hnd : (l₁ ++ s :: l₂).Nodup := hsplit ▸ (by decide : startOrder.Nodup)
  obtain ⟨hnd₁, hnd₂, hdisj⟩ := List.nodup_append.mp hnd
  refine ⟨l₁, s, l₂, hsplit, hacted, hfail, htracked, ?_⟩
  intro t ht
  have htnl : t ∉ l₁ := fun hm => hdisj hm (List.mem_cons_of_mem s ht)
  have htns : t ≠ s := by
    intro hts
    exact (List.nodup_cons.mp hnd₂).1 (hts ▸ ht)
  exact hrest t htnl htns

/-- C6 witness: with Ord failing to spawn from an empty map, start_all
stops there, the three earlier services stay tracked, and the two later
ones are untouched. -/
theorem start_all_stops_at_failure_witness :
    (start_all envFailOrd emptyPM).result =
      .error "Failed to start Ord (Inscriptions): boom" ∧
    ∃ l₁ s l₂, startOrder = l₁ ++ s :: l₂ ∧
      (start_all envFailOrd emptyPM).acted = l₁ ++ [s] ∧
      start_service envFailOrd (start_all envFailOrd emptyPM).state s =
        (.error "Failed to start Ord (Inscriptions): boom",
         (start_all envFailOrd emptyPM).state) ∧
      (∀ t ∈ l₁, ((start_all envFailOrd emptyPM).state t).isSome) ∧
      (∀ t ∈ l₂, (start_all envFailOrd emptyPM).state t = emptyPM t) :=
  ⟨rfl,
   start_all_stops_at_failure envFailOrd emptyPM
     "Failed to start Ord (Inscriptions): boom" rfl⟩

/-- C5 counterexample: with JsonRpc and Bitcoind tracked and the wait on
JsonRpc failing, stop_all reports the failure but acts on JsonRpc only:
Bitcoind, later in the stop order and still tracked, is never attempted
and keeps its record, so a failure does prevent stopping the rest. -/
theorem stop_all_aborts_midway :
    exceptIsOk (stop_all envFailJson stJB).result = false ∧
    (stop_all envFailJson stJB).acted = [SId.JsonRpc] ∧
    (stop_all envFailJson stJB).state SId.Bitcoind = some demoInfo := by
  refine ⟨by decide, by decide, by decide⟩

/-- C5 amended: stop_all walks the exact reverse of the start order, but
a stop failure aborts it at the failing service: the acted services
respect the reverse order, and on an error there is a failing service
(tracked, with a failing wait) such that every service after it in the
stop order is left untouched rather than attempted. -/
theorem stop_all_reverse_order_abort (env : StopEnv) (st : PMState) :
    stopOrder = startOrder.reverse ∧
    (stop_all env st).acted.Sublist stopOrder ∧
    ∀ e : String, (stop_all env st).result = .error e →
      ∃ l₁ s l₂, stopOrder = l₁ ++ s :: l₂ ∧
        (st s).isSome ∧ env.waitFails s = true ∧
        ∀ t ∈ l₂, (stop_all env st).state t = st t := by
  refine ⟨by decide, ?_, ?_⟩
  · exact stopSeq_acted_sublist env stopOrder st
  · intro e h
    obtain ⟨l₁, s, l₂, hsplit, hsome, hw, hrest⟩ :=
      stopSeq_error_decomp env stopOrder (by decide) st e h
    have hnd : (l₁ ++ s :: l₂).Nodup := hsplit ▸ (by decide : stopOrder.Nodup)
    obtain ⟨hnd₁, hnd₂, hdisj⟩ := List.nodup_append.mp hnd
    refine ⟨l₁, s, l₂, hsplit, hsome, hw, ?_⟩
    intro t ht
    have htnl : t ∉ l₁ := fun hm => hdisj hm (List.mem_cons_of_mem s ht)
    have htns : t ≠ s := by
      intro hts
      exact (List.nodup_cons.mp hnd₂).1 (hts ▸ ht)
    exact hrest t htnl htns

/-- C5 witness: the amended statement instantiated on the sample failing
state. -/
theorem stop_all_reverse_order_abort_witness :
    stopOrder = startOrder.reverse ∧
    (stop_all envFailJson stJB).acted.Sublist stopOrder ∧
    ∃ l₁ s l₂, stopOrder = l₁ ++ s :: l₂ ∧
      (stJB s).isSome ∧ envFailJson.waitFails s = true ∧
      ∀ t ∈ l₂, (stop_all envFailJson stJB).state t = stJB t :=
  ⟨(stop_all_reverse_order_abort envFailJson stJB).1,
   (stop_all_reverse_order_abort envFailJson stJB).2.1,
   (stop_all_reverse_order_abort envFailJson stJB).2.2
     "Error waiting for Alkanes JSON-RPC: boom" rfl⟩

/-- C9 counterexample: when the first stop_all fails on JsonRpc,
Bitcoind stays tracked, so the second stop_all does act on a service:
two stop_all calls in a row are not a guaranteed no-op. -/
theorem stop_all_twice_not_noop :
    exceptIsOk (stop_all envFailJson stJB).result = false ∧
    (stop_all envNoFail (stop_all envFailJson stJB).state).acted = [SId.Bitcoind] := by
  refine ⟨by decide, by decide⟩

/-- C9 amended: when a stop_all call returns success, a second stop_all
from the resulting state performs no stop operation, changes nothing and
returns success. -/
theorem stop_all_ok_idempotent (env env2 : StopEnv) (st : PMState)
    (h : (stop_all env st).result = .ok ()) :
    stop_all env2 (stop_all env st).state =
      { result := .ok (), state := (stop_all env st).state, acted := [] } := by
  apply stopSeq_of_all_none
  intro s _
  exact stopSeq_ok_all_none env stopOrder st h s (mem_stopOrder s)

/-- C9 witness: after a successful stop_all on the sample state, the
second call is a no-op. -/
theorem stop_all_ok_idempotent_witness :
    (stop_all envNoFail stJB).result = .ok () ∧
    stop_all envNoFail (stop_all envNoFail stJB).state =
      { result := .ok (), state := (stop_all envNoFail stJB).state, acted := [] } :=
  ⟨rfl, stop_all_ok_idempotent envNoFail envNoFail stJB rfl⟩

/-- C2: a successful download can report regressing progress.  With no
Content-Length header the fallback total is the hardcoded size estimate;
a Metashrew body of 26,000,000 bytes against the 25,000,000 estimate
drives the chunk progress to 0.936, after which the fixed 0.9 callback
is a strictly smaller value, so the reported sequence is not monotone
even though the download succeeds. -/
theorem download_progress_regresses :
    exceptIsOk (desktopDownload "linux" "x86_64" DServiceId.Metashrew none envNoLen
      none).result = true ∧
    (desktopDownload "linux" "x86_64" DServiceId.Metashrew none envNoLen none).trace =
      [0, (26000000 : ℚ) / 25000000 * (9 / 10), 9 / 10, 1] ∧
    ¬ List.Chain' (fun a b : ℚ => a ≤ b)
        (desktopDownload "linux" "x86_64" DServiceId.Metashrew none envNoLen none).trace := by
  have hlen : bigChunk.length = 26000000 := List.length_replicate 26000000 0
  have hcum : cumProgress 25000000 [bigChunk] 0 =
      [(26000000 : ℚ) / 25000000 * (9 / 10)] := by
    simp only [cumProgress, hlen]
    norm_num
  have htr : (desktopDownload "linux" "x86_64" DServiceId.Metashrew none envNoLen
      none).trace = [0, (26000000 : ℚ) / 25000000 * (9 / 10), 9 / 10, 1] := by
    simp [desktopDownload, download, envNoLen, desktopReleases, expectedChecksum,
      getChecksumForFile, downloadTail, installStep, hcum]
  refine ⟨?_, htr, ?_⟩
  · simp [desktopDownload, download, envNoLen, desktopReleases, expectedChecksum,
      getChecksumForFile, downloadTail, installStep, exceptIsOk]
  · rw [htr]
    simp only [List.chain'_cons, List.chain'_singleton, and_true]
    intro hmono
    have h2 := hmono.2.1
    norm_num at h2

end Isomer
